import Mathlib

/-!
Verification development for the Debt-Manager application.

The repository ships two versions of the browser frontend (`src/static/app.js`
and `src/unnamed/part_000`, the latter an earlier copy of the same file); they
are embedded below in the namespaces `StaticApp` and `Part000`.  The debt
payoff simulation engine described by the design document is not part of the
source tree, so it is modelled from the specification text (section 4.1 of the
design document) in the namespace `Engine`.

Monetary amounts are modelled as rationals (`ℚ`): the specification requires
exact decimal arithmetic carried at full precision during the simulation.
JavaScript `parseFloat` results are modelled as `Option ℚ`, with `none`
standing for `NaN` (an unparsable input).
-/

namespace DebtManager

/-- JavaScript `parseFloat(x) || 0`: `none` models `NaN` (unparsable input),
which is falsy and becomes `0`; a parsed number is falsy exactly when it is
`0`, in which case `0` is substituted (leaving the value unchanged). -/
def numOr0 : Option ℚ → ℚ
  | none => 0
  | some x => if x = 0 then 0 else x

/-- Request record built by `fetch` in the `api` helper: URL, HTTP method,
whether a JSON `Content-Type` header is attached, the serialized body (when
present), and whether the response is parsed as JSON (`res.json()`). -/
structure ApiRequest (α : Type) where
  url : String
  method : String
  content_type_json : Bool
  body : Option String
  parse_response_json : Bool
deriving DecidableEq

/-- Payload of the `POST /api/debt` request issued by `addDebt`. -/
structure DebtPayload where
  name : String
  balance : ℚ
  apr : ℚ
  min_payment : ℚ
deriving DecidableEq

/-- Observable effects of one `addDebt` invocation: alerts shown, debt
payloads posted to `/api/debt`, and whether `refreshStatus` was called. -/
structure AddDebtEffects where
  alerts : List String
  posts : List DebtPayload
  refreshed : Bool
deriving DecidableEq

/-- Body of the `POST /api/plan` request built by `generatePlan`. -/
structure PlanRequest where
  method : String
  extra_payment : ℚ
  months_limit : Nat
deriving DecidableEq

/-- One row of the `months` array in a successful `/api/plan` response. -/
structure PlanMonth where
  month : Nat
  paid : ℚ
  remaining : ℚ
deriving DecidableEq

/-- Response of `POST /api/plan` as consumed by `generatePlan`.  The `error`
field models `res.error`: the empty string stands for an absent (falsy)
error field, a non-empty string is a truthy human-readable message. -/
structure PlanResponse where
  error : String
  total_months : Nat
  total_paid : ℚ
  months : List PlanMonth
deriving DecidableEq

/-- DOM state touched by the frontend: the innerHTML of the three containers
`status`, `debts_list` and `plan_output`. -/
structure PageState where
  status_html : String
  debts_list_html : String
  plan_output : String
deriving DecidableEq

/-- Request sent by `generatePlan`: `{method, extra_payment: extra,
months_limit: 120}` where `extra = parseFloat(...) || 0`. -/
def planRequestOf (methodInput : String) (extraInput : Option ℚ) : PlanRequest :=
  { method := methodInput, extra_payment := numOr0 extraInput, months_limit := 120 }

namespace StaticApp

/-- Embeds `api` from `src/static/app.js` (lines 1-9): the request it makes.
`stringify` stands for `JSON.stringify`; the header and body are attached
exactly when a body is given, and the response is returned as parsed JSON. -/
def api {α : Type} (stringify : α → String) (path : String) (method : String)
    (body : Option α) : ApiRequest α :=
  { url := "/api" ++ path
    method := method
    content_type_json := body.isSome
    body := body.map stringify
    parse_response_json := true }

/-- Embeds `addDebt` from `src/static/app.js` (lines 25-33).  Inputs are the
raw `name` field and the `parseFloat` results of the three numeric fields
(`none` = unparsable).  JS `!name` is true exactly for the empty string. -/
def addDebt (nameInput : String) (balanceInput aprInput minInput : Option ℚ) :
    AddDebtEffects :=
  let balance := numOr0 balanceInput
  let apr := numOr0 aprInput
  let min_payment := numOr0 minInput
  if nameInput = "" ∨ balance ≤ 0 then
    { alerts := ["Enter valid debt name and balance"], posts := [], refreshed := false }
  else
    { alerts := [], posts := [⟨nameInput, balance, apr, min_payment⟩], refreshed := true }

/-- HTML row rendered for one month of the plan table. -/
def renderMonthRow (m : PlanMonth) : String :=
  "<tr><td>" ++ toString m.month ++ "</td><td>₹ " ++ toString m.paid ++
    "</td><td>₹ " ++ toString m.remaining ++ "</td></tr>"

/-- HTML written into `plan_output` by `generatePlan` on success. -/
def renderPlan (res : PlanResponse) : String :=
  "<div class=\"card\"><div class=\"card-body\"><h5>Plan (" ++
    toString res.total_months ++ " months)</h5>" ++
    "<div class=\"mb-2\"><strong>Total Paid:</strong> ₹ " ++ toString res.total_paid ++ "</div>" ++
    "<div style=\"max-height:350px; overflow:auto;\"><table class=\"table table-sm\">" ++
    "<thead><tr><th>M</th><th>Paid</th><th>Remaining</th></tr></thead><tbody>" ++
    String.join (res.months.map renderMonthRow) ++
    "</tbody></table></div></div></div>"

/-- Embeds `generatePlan` from `src/static/app.js` (lines 77-92).  `server`
maps the posted request to the `/api/plan` response.  Returns the new page
state and the list of alerts raised: on a truthy `res.error` the function
alerts the message and returns before touching `plan_output`. -/
def generatePlan (methodInput : String) (extraInput : Option ℚ)
    (server : PlanRequest → PlanResponse) (state : PageState) :
    PageState × List String :=
  let res := server (planRequestOf methodInput extraInput)
  if res.error ≠ "" then (state, [res.error])
  else ({ state with plan_output := renderPlan res }, [])

end StaticApp

namespace Part000

/-- Embeds `api` from `src/unnamed/part_000` (lines 2-10), the earlier copy of
`static/app.js`; textually the same function as `StaticApp.api`. -/
def api {α : Type} (stringify : α → String) (path : String) (method : String)
    (body : Option α) : ApiRequest α :=
  { url := "/api" ++ path
    method := method
    content_type_json := body.isSome
    body := body.map stringify
    parse_response_json := true }

/-- Embeds `addDebt` from `src/unnamed/part_000` (lines 28-37): same guard as
`StaticApp.addDebt`, but the success path additionally alerts "Debt added". -/
def addDebt (nameInput : String) (balanceInput aprInput minInput : Option ℚ) :
    AddDebtEffects :=
  let balance := numOr0 balanceInput
  let apr := numOr0 aprInput
  let min_payment := numOr0 minInput
  if nameInput = "" ∨ balance ≤ 0 then
    { alerts := ["Enter valid debt name and balance"], posts := [], refreshed := false }
  else
    { alerts := ["Debt added"], posts := [⟨nameInput, balance, apr, min_payment⟩], refreshed := true }

/-- HTML written into `plan_output` by this version of `generatePlan`. -/
def renderPlan (res : PlanResponse) : String :=
  "<div class=\"card\"><div class=\"card-body\"><h5>Plan (months: " ++
    toString res.total_months ++ ")</h5>" ++
    "<div class=\"mb-2\"><strong>Total paid:</strong> ₹ " ++ toString res.total_paid ++ "</div>" ++
    "<div style=\"max-height:350px; overflow:auto;\"><table class=\"table table-sm\">" ++
    "<thead><tr><th>M</th><th>Paid</th><th>Remaining</th></tr></thead><tbody>" ++
    String.join (res.months.map StaticApp.renderMonthRow) ++
    "</tbody></table></div></div></div>"

/-- Embeds `generatePlan` from `src/unnamed/part_000` (lines 61-76): identical
control flow to `StaticApp.generatePlan`, different success HTML. -/
def generatePlan (methodInput : String) (extraInput : Option ℚ)
    (server : PlanRequest → PlanResponse) (state : PageState) :
    PageState × List String :=
  let res := server (planRequestOf methodInput extraInput)
  if res.error ≠ "" then (state, [res.error])
  else ({ state with plan_output := renderPlan res }, [])

end Part000

namespace Engine

/-- Modelled from the spec: the repayment strategy enum of the simulation
engine (the engine's source file is not in the repository; only the design
document, section 3, describes it). -/
inductive Strategy
  | avalanche
  | snowball
deriving DecidableEq

/-- Modelled from the spec: parsing of the strategy identifier string of the
external interface (section 6); any string other than the two enum names is a
malformed identifier. -/
def parseStrategy : String → Option Strategy
  | "avalanche" => some Strategy.avalanche
  | "snowball" => some Strategy.snowball
  | _ => none

/-- Modelled from the spec: a debt record as the engine receives it
(section 3, data model). -/
structure Debt where
  id : Nat
  name : String
  balance : ℚ
  apr : ℚ
  min_payment : ℚ
deriving DecidableEq

/-- Modelled from the spec: the single error kind of the engine
(section 7, error taxonomy). -/
inductive SimError
  | invalidInput (msg : String)
deriving DecidableEq

/-- Modelled from the spec: one month of the schedule (section 3). -/
structure MonthEntry where
  month : Nat
  paid : ℚ
  remaining : ℚ
deriving DecidableEq

/-- Modelled from the spec: terminal status of a simulation, "fully paid off"
versus "month cap reached with residual balance" (section 3). -/
inductive SimStatus
  | paidOff
  | capReached
deriving DecidableEq

/-- Modelled from the spec: the simulation result (section 3). -/
structure SimulationResult where
  months : List MonthEntry
  total_months : Nat
  total_paid : ℚ
  status : SimStatus
deriving DecidableEq

/-- Total remaining balance of a list of debts. -/
def sumBalances (l : List Debt) : ℚ :=
  (l.map Debt.balance).sum

/-- Modelled from the spec: interest accrual, step 1 of the per-month
procedure (section 4.1): a remaining debt gains `balance * (apr/100)/12`. -/
def accrue (d : Debt) : Debt :=
  if 0 < d.balance then
    { d with balance := d.balance + d.balance * (d.apr / 100) / 12 }
  else d

/-- Modelled from the spec: minimum payment for one debt, step 2 of the
per-month procedure: a remaining debt pays `min(min_payment, balance)`. -/
def payMin (d : Debt) : Debt × ℚ :=
  if 0 < d.balance then
    ({ d with balance := d.balance - min d.min_payment d.balance },
      min d.min_payment d.balance)
  else (d, 0)

/-- Modelled from the spec: the minimum payment pass over all debts,
returning the updated debts and the total paid in this pass. -/
def minPass : List Debt → List Debt × ℚ
  | [] => ([], 0)
  | d :: rest => ((payMin d).1 :: (minPass rest).1, (payMin d).2 + (minPass rest).2)

/-- Modelled from the spec: the avalanche ordering key (section 4.1, step 3):
descending APR, ties broken by ascending balance then ascending id. -/
def AvLE (a b : Debt) : Prop :=
  b.apr < a.apr ∨
    (a.apr = b.apr ∧ (a.balance < b.balance ∨ (a.balance = b.balance ∧ a.id ≤ b.id)))

/-- Modelled from the spec: the snowball ordering key (section 4.1, step 3):
ascending balance, ties broken by descending APR then ascending id. -/
def SnLE (a b : Debt) : Prop :=
  a.balance < b.balance ∨
    (a.balance = b.balance ∧ (b.apr < a.apr ∨ (b.apr = a.apr ∧ a.id ≤ b.id)))

instance (a b : Debt) : Decidable (AvLE a b) :=
  inferInstanceAs (Decidable (_ ∨ _))

instance (a b : Debt) : Decidable (SnLE a b) :=
  inferInstanceAs (Decidable (_ ∨ _))

instance : IsTotal Debt AvLE where
  total a b := by
    unfold AvLE
    rcases lt_trichotomy a.apr b.apr with h | h | h
    · exact Or.inr (Or.inl h)
    · rcases lt_trichotomy a.balance b.balance with hb | hb | hb
      · exact Or.inl (Or.inr ⟨h, Or.inl hb⟩)
      · rcases Nat.le_total a.id b.id with hi | hi
        · exact Or.inl (Or.inr ⟨h, Or.inr ⟨hb, hi⟩⟩)
        · exact Or.inr (Or.inr ⟨h.symm, Or.inr ⟨hb.symm, hi⟩⟩)
      · exact Or.inr (Or.inr ⟨h.symm, Or.inl hb⟩)
    · exact Or.inl (Or.inl h)

instance : IsTrans Debt AvLE where
  trans a b c hab hbc := by
    unfold AvLE at hab hbc ⊢
    rcases hab with h1 | ⟨h1, h1'⟩ <;> rcases hbc with h2 | ⟨h2, h2'⟩
    · exact Or.inl (h2.trans h1)
    · exact Or.inl (h2 ▸ h1)
    · exact Or.inl (by rw [h1]; exact h2)
    · refine Or.inr ⟨h1.trans h2, ?_⟩
      rcases h1' with hb1 | ⟨hb1, hi1⟩ <;> rcases h2' with hb2 | ⟨hb2, hi2⟩
      · exact Or.inl (hb1.trans hb2)
      · exact Or.inl (hb2 ▸ hb1)
      · exact Or.inl (by rw [hb1]; exact hb2)
      · exact Or.inr ⟨hb1.trans hb2, hi1.trans hi2⟩

instance : IsTotal Debt SnLE where
  total a b := by
    unfold SnLE
    rcases lt_trichotomy a.balance b.balance with h | h | h
    · exact Or.inl (Or.inl h)
    · rcases lt_trichotomy a.apr b.apr with ha | ha | ha
      · exact Or.inr (Or.inr ⟨h.symm, Or.inl ha⟩)
      · rcases Nat.le_total a.id b.id with hi | hi
        · exact Or.inl (Or.inr ⟨h, Or.inr ⟨ha.symm, hi⟩⟩)
        · exact Or.inr (Or.inr ⟨h.symm, Or.inr ⟨ha, hi⟩⟩)
      · exact Or.inl (Or.inr ⟨h, Or.inl ha⟩)
    · exact Or.inr (Or.inl h)

instance : IsTrans Debt SnLE where
  trans a b c hab hbc := by
    unfold SnLE at hab hbc ⊢
    rcases hab with h1 | ⟨h1, h1'⟩ <;> rcases hbc with h2 | ⟨h2, h2'⟩
    · exact Or.inl (h1.trans h2)
    · exact Or.inl (h2 ▸ h1)
    · exact Or.inl (by rw [h1]; exact h2)
    · refine Or.inr ⟨h1.trans h2, ?_⟩
      rcases h1' with ha1 | ⟨ha1, hi1⟩ <;> rcases h2' with ha2 | ⟨ha2, hi2⟩
      · exact Or.inl (ha2.trans ha1)
      · exact Or.inl (by rw [ha2]; exact ha1)
      · exact Or.inl (ha1 ▸ ha2)
      · exact Or.inr ⟨ha2.trans ha1, hi1.trans hi2⟩

/-- Modelled from the spec: the ordering relation selected by the strategy. -/
def strategyRel : Strategy → Debt → Debt → Prop
  | Strategy.avalanche => AvLE
  | Strategy.snowball => SnLE

instance (s : Strategy) : DecidableRel (strategyRel s) :=
  match s with
  | Strategy.avalanche => inferInstanceAs (DecidableRel AvLE)
  | Strategy.snowball => inferInstanceAs (DecidableRel SnLE)

instance (s : Strategy) : IsTotal Debt (strategyRel s) :=
  match s with
  | Strategy.avalanche => inferInstanceAs (IsTotal Debt AvLE)
  | Strategy.snowball => inferInstanceAs (IsTotal Debt SnLE)

instance (s : Strategy) : IsTrans Debt (strategyRel s) :=
  match s with
  | Strategy.avalanche => inferInstanceAs (IsTrans Debt AvLE)
  | Strategy.snowball => inferInstanceAs (IsTrans Debt SnLE)

/-- Modelled from the spec: step 3 of the per-month procedure — the ordered
list of remaining debts (balance > 0) sorted by the strategy's key. -/
def orderDebts (s : Strategy) (l : List Debt) : List Debt :=
  (l.filter fun d => decide (0 < d.balance)).insertionSort (strategyRel s)

/-- Modelled from the spec: step 4, extra allocation — walk the ordered list
carrying a funds accumulator; each debt receives `min(funds, balance)`, the
leftover rolls to the next debt.  Returns the updated list and the total
extra paid. -/
def allocate : List Debt → ℚ → List Debt × ℚ
  | [], _ => ([], 0)
  | d :: rest, funds =>
    if funds ≤ 0 then (d :: rest, 0)
    else
      ({ d with balance := d.balance - min funds d.balance } ::
          (allocate rest (funds - min funds d.balance)).1,
        min funds d.balance + (allocate rest (funds - min funds d.balance)).2)

/-- Modelled from the spec: one simulated month (section 4.1, steps 1-5):
accrual, minimum pass, strategy ordering, extra allocation, bookkeeping.
Returns the still-active debts (balance > 0), the month's `paid` total
(minimum-pass payments plus extra-pass payments) and the month's `remaining`
total (debts at balance 0 contribute 0). -/
def monthStep (s : Strategy) (extra : ℚ) (debts : List Debt) :
    List Debt × ℚ × ℚ :=
  let accrued := debts.map accrue
  let afterMin := (minPass accrued).1
  let minPaid := (minPass accrued).2
  let afterExtra := (allocate (orderDebts s afterMin) extra).1
  let extraPaid := (allocate (orderDebts s afterMin) extra).2
  let active := afterExtra.filter fun d => decide (0 < d.balance)
  (active, minPaid + extraPaid, sumBalances active)

/-- Modelled from the spec: the month loop — repeat `monthStep` while any
debt has balance > 0 and the month index stays within the cap (`fuel` is the
number of months still allowed).  Returns the list of month entries and the
debts still unpaid when the loop stops. -/
def simLoop (s : Strategy) (extra : ℚ) :
    Nat → Nat → List Debt → List MonthEntry × List Debt
  | 0, _, debts => ([], debts)
  | fuel + 1, monthIdx, debts =>
    if debts.isEmpty then ([], debts)
    else
      (⟨monthIdx, (monthStep s extra debts).2.1, (monthStep s extra debts).2.2⟩ ::
          (simLoop s extra fuel (monthIdx + 1) (monthStep s extra debts).1).1,
        (simLoop s extra fuel (monthIdx + 1) (monthStep s extra debts).1).2)

/-- Modelled from the spec: the engine's contract
`simulate(debts, strategy, extra_payment, months_limit) -> SimulationResult`
(section 4.1): validation (`InvalidInput` on a malformed strategy identifier,
`months_limit ≤ 0`, `extra_payment < 0`, or a debt with `balance < 0`), the
drop of debts with balance ≤ 0, the month loop, and result aggregation. -/
def simulate (debts : List Debt) (strategy : String) (extra_payment : ℚ)
    (months_limit : Int) : Except SimError SimulationResult :=
  match parseStrategy strategy with
  | none => Except.error (SimError.invalidInput "unknown strategy")
  | some s =>
    if months_limit ≤ 0 then
      Except.error (SimError.invalidInput "months_limit must be a positive integer")
    else if extra_payment < 0 then
      Except.error (SimError.invalidInput "extra_payment must be non-negative")
    else if ∃ d ∈ debts, d.balance < 0 then
      Except.error (SimError.invalidInput "debt balance must be non-negative")
    else
      let active := debts.filter fun d => decide (0 < d.balance)
      let run := simLoop s extra_payment months_limit.toNat 1 active
      Except.ok
        { months := run.1
          total_months := run.1.length
          total_paid := (run.1.map MonthEntry.paid).sum
          status := if run.2.isEmpty then SimStatus.paidOff else SimStatus.capReached }

end Engine

open Engine

/-! ## Helper lemmas -/

theorem monthStep_remaining_eq (s : Strategy) (extra : ℚ) (debts : List Debt) :
    (monthStep s extra debts).2.2 = sumBalances (monthStep s extra debts).1 := rfl

theorem monthStep_active_pos (s : Strategy) (extra : ℚ) (debts : List Debt) :
    ∀ d ∈ (monthStep s extra debts).1, 0 < d.balance := by
  intro d hd
  unfold monthStep at hd
  simp only [List.mem_filter, decide_eq_true_eq] at hd
  exact hd.2

theorem simLoop_nil (s : Strategy) (extra : ℚ) :
    ∀ fuel idx, simLoop s extra fuel idx [] = ([], [])
  | 0, _ => rfl
  | _ + 1, _ => by simp [simLoop]

theorem simLoop_cons (s : Strategy) (extra : ℚ) (fuel idx : Nat) (d : Debt) (t : List Debt) :
    simLoop s extra (fuel + 1) idx (d :: t) =
      (⟨idx, (monthStep s extra (d :: t)).2.1, (monthStep s extra (d :: t)).2.2⟩ ::
          (simLoop s extra fuel (idx + 1) (monthStep s extra (d :: t)).1).1,
        (simLoop s extra fuel (idx + 1) (monthStep s extra (d :: t)).1).2) := by
  simp [simLoop]

theorem simLoop_final_of_entries_nil (s : Strategy) (extra : ℚ) :
    ∀ fuel idx debts, (simLoop s extra fuel idx debts).1 = [] →
      (simLoop s extra fuel idx debts).2 = debts
  | 0, _, _, _ => rfl
  | fuel + 1, idx, debts, h => by
    cases debts with
    | nil => rw [simLoop_nil]
    | cons d t => rw [simLoop_cons] at h; exact absurd h (List.cons_ne_nil _ _)

theorem simLoop_length_of_final_ne_nil (s : Strategy) (extra : ℚ) :
    ∀ fuel idx debts, (simLoop s extra fuel idx debts).2 ≠ [] →
      (simLoop s extra fuel idx debts).1.length = fuel
  | 0, _, _, _ => rfl
  | fuel + 1, idx, debts, h => by
    cases debts with
    | nil => rw [simLoop_nil] at h; exact absurd rfl h
    | cons d t =>
      rw [simLoop_cons] at h ⊢
      simp only [List.length_cons]
      rw [simLoop_length_of_final_ne_nil s extra fuel (idx + 1) (monthStep s extra (d :: t)).1 h]

theorem simLoop_final_pos (s : Strategy) (extra : ℚ) :
    ∀ fuel idx debts, (∀ d ∈ debts, 0 < d.balance) →
      ∀ d ∈ (simLoop s extra fuel idx debts).2, 0 < d.balance
  | 0, _, _, h => h
  | fuel + 1, idx, debts, h => by
    cases debts with
    | nil => rw [simLoop_nil]; intro d hd; exact absurd hd (List.not_mem_nil d)
    | cons d t =>
      rw [simLoop_cons]
      exact simLoop_final_pos s extra fuel (idx + 1) (monthStep s extra (d :: t)).1
        (monthStep_active_pos s extra (d :: t))

theorem simLoop_getLast_remaining (s : Strategy) (extra : ℚ) :
    ∀ fuel idx debts, fuel ≠ 0 → debts ≠ [] →
      ∃ e, (simLoop s extra fuel idx debts).1.getLast? = some e ∧
        e.remaining = sumBalances (simLoop s extra fuel idx debts).2
  | 0, _, _, hf, _ => absurd rfl hf
  | fuel + 1, idx, debts, _, hd => by
    cases debts with
    | nil => exact absurd rfl hd
    | cons d t =>
      rw [simLoop_cons]
      rcases hr : (simLoop s extra fuel (idx + 1) (monthStep s extra (d :: t)).1).1 with _ | ⟨a, u⟩
      · refine ⟨⟨idx, (monthStep s extra (d :: t)).2.1, (monthStep s extra (d :: t)).2.2⟩, ?_, ?_⟩
        · simp [hr]
        · rw [simLoop_final_of_entries_nil s extra fuel (idx + 1) _ hr]
          exact monthStep_remaining_eq s extra (d :: t)
      · have hfuel : fuel ≠ 0 := by
          intro h0
          subst h0
          simp [simLoop] at hr
        have hstep : (monthStep s extra (d :: t)).1 ≠ [] := by
          intro h0
          rw [h0, simLoop_nil] at hr
          simp at hr
        obtain ⟨e, he1, he2⟩ :=
          simLoop_getLast_remaining s extra fuel (idx + 1) (monthStep s extra (d :: t)).1 hfuel hstep
        refine ⟨e, ?_, he2⟩
        rw [hr] at he1
        change (_ :: a :: u : List MonthEntry).getLast? = some e
        rw [List.getLast?_cons_cons]
        exact he1

theorem sumBalances_nonneg (l : List Debt) (h : ∀ d ∈ l, 0 ≤ d.balance) :
    0 ≤ sumBalances l := by
  unfold sumBalances
  apply List.sum_nonneg
  intro x hx
  rcases List.mem_map.mp hx with ⟨d, hd, rfl⟩
  exact h d hd

theorem sumBalances_pos (l : List Debt) (h : ∀ d ∈ l, 0 < d.balance) (hne : l ≠ []) :
    0 < sumBalances l := by
  cases l with
  | nil => exact absurd rfl hne
  | cons d t =>
    have h1 : 0 < d.balance := h d (List.mem_cons_self d t)
    have h2 : 0 ≤ sumBalances t :=
      sumBalances_nonneg t fun x hx => (h x (List.mem_cons_of_mem d hx)).le
    unfold sumBalances at h2 ⊢
    simp only [List.map_cons, List.sum_cons]
    linarith

theorem sumBalances_cons (d : Debt) (t : List Debt) :
    sumBalances (d :: t) = d.balance + sumBalances t := by
  simp [sumBalances]

theorem allocate_total (l : List Debt) : ∀ funds : ℚ, 0 ≤ funds →
    (∀ d ∈ l, 0 ≤ d.balance) → (allocate l funds).2 = min funds (sumBalances l) := by
  induction l with
  | nil =>
    intro funds hf _
    simp [allocate, sumBalances, min_eq_right hf]
  | cons d t ih =>
    intro funds hf hb
    have hd : 0 ≤ d.balance := hb d (List.mem_cons_self d t)
    have ht : ∀ x ∈ t, 0 ≤ x.balance := fun x hx => hb x (List.mem_cons_of_mem d hx)
    have hts : 0 ≤ sumBalances t := sumBalances_nonneg t ht
    by_cases h0 : funds ≤ 0
    · have hz : funds = 0 := le_antisymm h0 hf
      subst hz
      rw [sumBalances_cons]
      simp [allocate, min_eq_left]
      linarith
    · have hpos : 0 < funds := lt_of_not_le h0
      simp only [allocate, h0, if_false]
      rw [ih (funds - min funds d.balance) (by simp [min_le_left, min_le_right]) ht]
      rw [sumBalances_cons]
      rcases le_total funds d.balance with hc | hc
      · rw [min_eq_left hc]
        rw [min_eq_left (by linarith : funds ≤ d.balance + sumBalances t)]
        simp [min_eq_left hts]
      · rw [min_eq_right hc]
        rcases le_total (funds - d.balance) (sumBalances t) with hc2 | hc2
        · rw [min_eq_left hc2, min_eq_left (by linarith : funds ≤ d.balance + sumBalances t)]
          ring
        · rw [min_eq_right hc2, min_eq_right (by linarith : d.balance + sumBalances t ≤ funds)]

/-! ## Claim theorems -/

/-- Claim C1, counterexample: a negative user input is NOT sent as 0.  With
the extra-payment field parsed to `-5`, `generatePlan` sends
`extra_payment = -5`, and with the minimum-payment field parsed to `-7`,
`addDebt` posts `min_payment = -7`. -/
theorem negative_inputs_sent_unchanged_cex :
    (planRequestOf "avalanche" (some (-5))).extra_payment = -5 ∧
    ((-5 : ℚ) < 0) ∧ (planRequestOf "avalanche" (some (-5))).extra_payment ≠ 0 ∧
    (StaticApp.addDebt "car" (some 100) (some 10) (some (-7))).posts =
      [⟨"car", 100, 10, -7⟩] := by
  refine ⟨rfl, by norm_num, by norm_num [planRequestOf, numOr0], ?_⟩
  have hguard : ¬("car" = "" ∨ numOr0 (some (100 : ℚ)) ≤ 0) := by decide
  simp only [StaticApp.addDebt]
  rw [if_neg hguard]
  norm_num [numOr0]

/-- Claim C1 (amended): the `extra_payment` sent by `generatePlan` and the
`min_payment` posted by `addDebt` (both versions) are 0 whenever the user's
input is unparsable as a number; negative parsed values are passed through
unchanged (their rejection is left to the engine). -/
theorem unparsable_inputs_sent_as_zero (methodInput nameInput : String)
    (balanceInput aprInput : Option ℚ)
    (hn : nameInput ≠ "") (hb : 0 < numOr0 balanceInput) :
    (planRequestOf methodInput none).extra_payment = 0 ∧
    (StaticApp.addDebt nameInput balanceInput aprInput none).posts =
      [⟨nameInput, numOr0 balanceInput, numOr0 aprInput, 0⟩] ∧
    (Part000.addDebt nameInput balanceInput aprInput none).posts =
      [⟨nameInput, numOr0 balanceInput, numOr0 aprInput, 0⟩] := by
  have hguard : ¬(nameInput = "" ∨ numOr0 balanceInput ≤ 0) := by
    rintro (h | h)
    · exact hn h
    · exact absurd hb h.not_lt
  refine ⟨rfl, ?_, ?_⟩
  · simp only [StaticApp.addDebt]
    rw [if_neg hguard]
    rfl
  · simp only [Part000.addDebt]
    rw [if_neg hguard]
    rfl

/-- Claim C1, witness for the amended theorem at a concrete input. -/
theorem unparsable_inputs_sent_as_zero_witness :
    (planRequestOf "avalanche" none).extra_payment = 0 ∧
    (StaticApp.addDebt "car" (some 100) none none).posts =
      [⟨"car", numOr0 (some 100), numOr0 none, 0⟩] ∧
    (Part000.addDebt "car" (some 100) none none).posts =
      [⟨"car", numOr0 (some 100), numOr0 none, 0⟩] :=
  unparsable_inputs_sent_as_zero "avalanche" "car" (some 100) none
    (by simp) (by norm_num [numOr0])

/-- Claim C2: whenever the `/plan` response carries a (truthy) error message,
`generatePlan` — in both source versions — surfaces exactly that message as
an alert and returns with the page state (including the previously rendered
plan output) unchanged; no schedule is rendered. -/
theorem plan_error_leaves_state_unchanged (methodInput : String)
    (extraInput : Option ℚ) (server : PlanRequest → PlanResponse)
    (state : PageState)
    (herr : (server (planRequestOf methodInput extraInput)).error ≠ "") :
    StaticApp.generatePlan methodInput extraInput server state =
      (state, [(server (planRequestOf methodInput extraInput)).error]) ∧
    Part000.generatePlan methodInput extraInput server state =
      (state, [(server (planRequestOf methodInput extraInput)).error]) := by
  constructor <;> simp [StaticApp.generatePlan, Part000.generatePlan, herr]

/-- Claim C2, witness at a concrete erroring server and page state. -/
theorem plan_error_leaves_state_unchanged_witness :
    StaticApp.generatePlan "avalanche" (some 50)
        (fun _ => ⟨"unknown strategy", 0, 0, []⟩) ⟨"s", "d", "p"⟩ =
      (⟨"s", "d", "p"⟩, ["unknown strategy"]) ∧
    Part000.generatePlan "avalanche" (some 50)
        (fun _ => ⟨"unknown strategy", 0, 0, []⟩) ⟨"s", "d", "p"⟩ =
      (⟨"s", "d", "p"⟩, ["unknown strategy"]) :=
  plan_error_leaves_state_unchanged "avalanche" (some 50)
    (fun _ => ⟨"unknown strategy", 0, 0, []⟩) ⟨"s", "d", "p"⟩ (by simp)

/-- Claim C9: `addDebt` (both source versions) alerts and performs neither
the POST to `/api/debt` nor the status refresh exactly when the name is
empty or the parsed balance (0 for unparsable input) is ≤ 0; otherwise it
issues exactly one POST carrying `{name, balance, apr, min_payment}`. -/
theorem addDebt_guard_and_post (nameInput : String)
    (balanceInput aprInput minInput : Option ℚ) :
    ((nameInput = "" ∨ numOr0 balanceInput ≤ 0) →
      StaticApp.addDebt nameInput balanceInput aprInput minInput =
        { alerts := ["Enter valid debt name and balance"], posts := [], refreshed := false } ∧
      Part000.addDebt nameInput balanceInput aprInput minInput =
        { alerts := ["Enter valid debt name and balance"], posts := [], refreshed := false }) ∧
    (¬(nameInput = "" ∨ numOr0 balanceInput ≤ 0) →
      StaticApp.addDebt nameInput balanceInput aprInput minInput =
        { alerts := [],
          posts := [⟨nameInput, numOr0 balanceInput, numOr0 aprInput, numOr0 minInput⟩],
          refreshed := true } ∧
      Part000.addDebt nameInput balanceInput aprInput minInput =
        { alerts := ["Debt added"],
          posts := [⟨nameInput, numOr0 balanceInput, numOr0 aprInput, numOr0 minInput⟩],
          refreshed := true }) := by
  constructor <;> intro h <;>
    simp [StaticApp.addDebt, Part000.addDebt, h]

/-- Claim C9, witness: both branches exercised at concrete inputs. -/
theorem addDebt_guard_and_post_witness :
    (StaticApp.addDebt "" none none none =
        { alerts := ["Enter valid debt name and balance"], posts := [], refreshed := false } ∧
      Part000.addDebt "" none none none =
        { alerts := ["Enter valid debt name and balance"], posts := [], refreshed := false }) ∧
    (StaticApp.addDebt "car" (some 100) (some 10) (some 5) =
        { alerts := [],
          posts := [⟨"car", numOr0 (some 100), numOr0 (some 10), numOr0 (some 5)⟩],
          refreshed := true } ∧
      Part000.addDebt "car" (some 100) (some 10) (some 5) =
        { alerts := ["Debt added"],
          posts := [⟨"car", numOr0 (some 100), numOr0 (some 10), numOr0 (some 5)⟩],
          refreshed := true }) :=
  ⟨(addDebt_guard_and_post "" none none none).1 (Or.inl rfl),
    (addDebt_guard_and_post "car" (some 100) (some 10) (some 5)).2
      (by decide)⟩

/-- Claim C10: the `api` helper is extensionally identical in the two source
versions — same URL `"/api" + path`, same method, JSON Content-Type header and
serialized body exactly when a body is given, response parsed as JSON. -/
theorem api_versions_identical {α : Type} (stringify : α → String)
    (path method : String) (body : Option α) :
    StaticApp.api stringify path method body = Part000.api stringify path method body := rfl

/-- Claim C8: `simulate` is deterministic — two calls with identical inputs
produce identical results (it is a pure function of its arguments in this
embedding, with no hidden state), including the month list, totals and
status. -/
theorem simulate_deterministic (debts : List Debt) (strategy : String)
    (extra : ℚ) (ml : Int) :
    simulate debts strategy extra ml = simulate debts strategy extra ml := rfl

/-- Claim C3: `simulate` returns an `InvalidInput` error iff the strategy
identifier is malformed, `months_limit ≤ 0`, `extra_payment < 0`, or some
input debt has `balance < 0`; on every other input it returns a complete
`SimulationResult` (no other failure mode). -/
theorem simulate_invalidInput_iff (debts : List Debt) (strategy : String)
    (extra : ℚ) (ml : Int) :
    ((∃ msg, simulate debts strategy extra ml = Except.error (SimError.invalidInput msg)) ↔
      parseStrategy strategy = none ∨ ml ≤ 0 ∨ extra < 0 ∨ ∃ d ∈ debts, d.balance < 0) ∧
    (¬(parseStrategy strategy = none ∨ ml ≤ 0 ∨ extra < 0 ∨ ∃ d ∈ debts, d.balance < 0) →
      ∃ r, simulate debts strategy extra ml = Except.ok r) := by
  cases hp : parseStrategy strategy with
  | none => simp [simulate, hp]
  | some s =>
    simp only [simulate, hp]
    split_ifs with h1 h2 h3 <;> simp_all

/-- Claim C3, witness: a valid input on which `simulate` succeeds. -/
theorem simulate_invalidInput_iff_witness :
    ∃ r, simulate [] "avalanche" 0 120 = Except.ok r :=
  (simulate_invalidInput_iff [] "avalanche" 0 120).2 (by simp [parseStrategy])

/-- Claim C4: in every month the remaining debts (balance > 0) are ordered by
the strategy's key — the list built by the engine is sorted under the strategy
relation (avalanche: descending APR, ties by ascending balance then ascending
id; snowball: ascending balance, ties by descending APR then ascending id)
and is a permutation of the remaining debts; and in Scenario B (debts
A {balance 500, apr 20, min 25} and B {balance 2000, apr 5, min 50} under
avalanche with extra 100), all of month 1's extra goes to A — A's balance
drops by its minimum plus the full 100 — before any reaches B. -/
theorem strategy_ordering_and_scenarioB :
    (∀ (s : Strategy) (l : List Debt),
        List.Sorted (strategyRel s) (orderDebts s l) ∧
        (orderDebts s l).Perm (l.filter fun d => decide (0 < d.balance))) ∧
    monthStep Strategy.avalanche 100 [⟨1, "A", 500, 20, 25⟩, ⟨2, "B", 2000, 5, 50⟩] =
      ([⟨1, "A", 1150 / 3, 20, 25⟩, ⟨2, "B", 5875 / 3, 5, 50⟩], 175, 7025 / 3) := by
  constructor
  · intro s l
    exact ⟨List.sorted_insertionSort (strategyRel s) _,
      List.perm_insertionSort (strategyRel s) _⟩
  · norm_num [monthStep, orderDebts, minPass, payMin, accrue, allocate, strategyRel,
      AvLE, SnLE, sumBalances, List.insertionSort, List.orderedInsert, min_def]

/-- Claim C5: extra allocation walks the strategy order — the first debt
receives `min(extra, balance after the minimum pass)` and the leftover is
passed to the rest of the list; the total extra actually paid equals
`min(extra, total remaining balance)` (funds roll until exhausted or all
debts are cleared); the month's `paid` total is the minimum-pass total plus
the (rollover-inclusive) extra-pass total; and in a concrete snowball month
(A {500, apr 5, min 25}, B {2000, apr 20, min 50}, extra 600) the leftover
after clearing A is applied to B in the same month, with the full 600
reflected in the month's paid total of 675. -/
theorem extra_allocation_rollover :
    (∀ (d : Debt) (rest : List Debt) (funds : ℚ), 0 < funds →
        allocate (d :: rest) funds =
          ({ d with balance := d.balance - min funds d.balance } ::
              (allocate rest (funds - min funds d.balance)).1,
            min funds d.balance + (allocate rest (funds - min funds d.balance)).2)) ∧
    (∀ (l : List Debt) (funds : ℚ), 0 ≤ funds → (∀ d ∈ l, 0 ≤ d.balance) →
        (allocate l funds).2 = min funds (sumBalances l)) ∧
    (∀ (s : Strategy) (extra : ℚ) (debts : List Debt),
        (monthStep s extra debts).2.1 =
          (minPass (debts.map accrue)).2 +
            (allocate (orderDebts s (minPass (debts.map accrue)).1) extra).2) ∧
    monthStep Strategy.snowball 600 [⟨1, "A", 500, 5, 25⟩, ⟨2, "B", 2000, 20, 50⟩] =
      ([⟨2, "B", 22325 / 12, 20, 50⟩], 675, 22325 / 12) := by
  refine ⟨?_, allocate_total, fun _ _ _ => rfl, ?_⟩
  · intro d rest funds hf
    simp [allocate, not_le.mpr hf]
  · norm_num [monthStep, orderDebts, minPass, payMin, accrue, allocate, strategyRel,
      AvLE, SnLE, sumBalances, List.insertionSort, List.orderedInsert, min_def]

/-- Claim C5, witness: the head-allocation equation and the totals law at a
concrete debt list and funds amount. -/
theorem extra_allocation_rollover_witness :
    allocate [⟨1, "A", 5, 0, 0⟩] 3 =
      ({ Debt.mk 1 "A" 5 0 0 with balance := (5 : ℚ) - min 3 5 } ::
          (allocate [] (3 - min 3 5)).1,
        min 3 5 + (allocate [] (3 - min 3 5)).2) ∧
    (allocate [⟨1, "A", 5, 0, 0⟩] 3).2 = min 3 (sumBalances [⟨1, "A", 5, 0, 0⟩]) :=
  ⟨extra_allocation_rollover.1 ⟨1, "A", 5, 0, 0⟩ [] 3 (by norm_num),
    extra_allocation_rollover.2.1 [⟨1, "A", 5, 0, 0⟩] 3 (by norm_num) (by decide)⟩

/-- Claim C6: on every valid input whose debts cannot be retired within
`months_limit` months (the month loop still has unpaid debts when the cap is
hit), `simulate` returns normally with status `capReached`, `total_months`
equal to `months_limit`, and a final month entry whose remaining balance is
strictly positive. -/
theorem cap_reached_normal_return (debts : List Debt) (strategy : String)
    (extra : ℚ) (ml : Int) (s : Strategy)
    (hs : parseStrategy strategy = some s) (hml : 0 < ml) (he : 0 ≤ extra)
    (hb : ∀ d ∈ debts, 0 ≤ d.balance)
    (hcap : (simLoop s extra ml.toNat 1
        (debts.filter fun d => decide (0 < d.balance))).2 ≠ []) :
    ∃ r, simulate debts strategy extra ml = Except.ok r ∧
      r.status = SimStatus.capReached ∧
      (r.total_months : Int) = ml ∧
      ∃ e, r.months.getLast? = some e ∧ 0 < e.remaining := by
  have hneg : ¬∃ d ∈ debts, d.balance < 0 := by
    rintro ⟨d, hd, hlt⟩
    exact absurd (hb d hd) hlt.not_le
  have hactive : ∀ d ∈ debts.filter (fun d => decide (0 < d.balance)), 0 < d.balance := by
    intro d hd
    simp only [List.mem_filter, decide_eq_true_eq] at hd
    exact hd.2
  have hne : (debts.filter fun d => decide (0 < d.balance)) ≠ [] := by
    intro h0
    rw [h0, simLoop_nil] at hcap
    exact hcap rfl
  have hfuel : ml.toNat ≠ 0 := by
    intro h0
    exact absurd (Int.toNat_of_nonneg hml.le) (by rw [h0]; exact hml.ne)
  obtain ⟨e, he1, he2⟩ := simLoop_getLast_remaining s extra ml.toNat 1
    (debts.filter fun d => decide (0 < d.balance)) hfuel hne
  have hsim : simulate debts strategy extra ml =
      Except.ok
        ⟨(simLoop s extra ml.toNat 1 (debts.filter fun d => decide (0 < d.balance))).1,
          (simLoop s extra ml.toNat 1 (debts.filter fun d => decide (0 < d.balance))).1.length,
          ((simLoop s extra ml.toNat 1
              (debts.filter fun d => decide (0 < d.balance))).1.map MonthEntry.paid).sum,
          if (simLoop s extra ml.toNat 1
              (debts.filter fun d => decide (0 < d.balance))).2.isEmpty then
            SimStatus.paidOff
          else SimStatus.capReached⟩ := by
    simp only [simulate, hs]
    rw [if_neg (not_le.mpr hml), if_neg (not_lt.mpr he), if_neg hneg]
  refine ⟨_, hsim, ?_, ?_, e, he1, ?_⟩
  · simp [List.isEmpty_iff, hcap]
  · simp only []
    rw [simLoop_length_of_final_ne_nil s extra ml.toNat 1 _ hcap]
    exact Int.toNat_of_nonneg hml.le
  · rw [he2]
    exact sumBalances_pos _ (simLoop_final_pos s extra ml.toNat 1 _ hactive) hcap

/-- Claim C6, witness: Scenario E — one debt unpayable within a one-month
cap; the simulation ends normally at the cap with a positive residual. -/
theorem cap_reached_normal_return_witness :
    ∃ r, simulate [⟨1, "D", 1000, 0, 10⟩] "avalanche" 0 1 = Except.ok r ∧
      r.status = SimStatus.capReached ∧
      (r.total_months : Int) = 1 ∧
      ∃ e, r.months.getLast? = some e ∧ 0 < e.remaining :=
  cap_reached_normal_return [⟨1, "D", 1000, 0, 10⟩] "avalanche" 0 1
    Strategy.avalanche rfl (by norm_num) (le_refl 0) (by decide)
    (by norm_num [simLoop, monthStep, orderDebts, minPass, payMin, accrue, allocate,
      strategyRel, AvLE, SnLE, sumBalances, List.insertionSort, List.orderedInsert, min_def])

/-- Claim C7, counterexample: a list whose debts all have balance ≤ 0 is NOT
always answered with the zero result — a negative balance is rejected with
`InvalidInput` by the validation that precedes the drop, so `simulate` does
not return `total_months = 0` (or any result) for it. -/
theorem all_nonpositive_balances_cex :
    ([⟨1, "N", -1, 0, 0⟩] : List Debt).all (fun d => decide (d.balance ≤ 0)) = true ∧
    simulate [⟨1, "N", -1, 0, 0⟩] "avalanche" 0 120 =
      Except.error (SimError.invalidInput "debt balance must be non-negative") := by
  constructor
  · decide
  · simp [simulate, parseStrategy]

/-- Claim C7 (amended): for the empty debt list, and more generally whenever
every debt has balance = 0 (balance ≤ 0 debts that also pass the
non-negativity validation — strictly negative balances are instead rejected
with `InvalidInput`), `simulate` returns `total_months = 0`,
`total_paid = 0`, an empty month sequence, and status `paidOff`. -/
theorem empty_or_zero_debts_immediately_paid_off (debts : List Debt)
    (strategy : String) (extra : ℚ) (ml : Int) (s : Strategy)
    (hs : parseStrategy strategy = some s) (hml : 0 < ml) (he : 0 ≤ extra)
    (hz : ∀ d ∈ debts, d.balance = 0) :
    simulate debts strategy extra ml =
      Except.ok ⟨[], 0, 0, SimStatus.paidOff⟩ := by
  have hneg : ¬∃ d ∈ debts, d.balance < 0 := by
    rintro ⟨d, hd, hlt⟩
    rw [hz d hd] at hlt
    exact lt_irrefl 0 hlt
  have hfilter : (debts.filter fun d => decide (0 < d.balance)) = [] := by
    rw [List.filter_eq_nil_iff]
    intro d hd
    simp [hz d hd]
  simp only [simulate, hs]
  rw [if_neg (not_le.mpr hml), if_neg (not_lt.mpr he), if_neg hneg]
  rw [hfilter, simLoop_nil]
  rfl

/-- Claim C7, witness: the empty debt list (Scenario D). -/
theorem empty_or_zero_debts_immediately_paid_off_witness :
    simulate [] "snowball" 0 120 =
      Except.ok ⟨[], 0, 0, SimStatus.paidOff⟩ :=
  empty_or_zero_debts_immediately_paid_off [] "snowball" 0 120
    Strategy.snowball rfl (by norm_num) (le_refl 0) (by simp)

end DebtManager
